import Mathlib

/-
Verification of `xero2rabo.py`: a one-shot converter from a Xero bank-statement
CSV export to a Rabobank SEPA credit-transfer (pain.001.001.03) XML document.

The Python source is embedded shallowly:
* pure string/formatting code becomes Lean string functions over `List Char`;
* the module-level `now = datetime.now()` capture and the `random.choice`
  draws are passed to the embedded functions as explicit arguments;
* `xml.etree.ElementTree` trees become an inductive `Element` type, and the
  mutating `find`/`.text =`/`remove`/`append` calls become functional updates
  returning `Option` (where `none` models the uncaught exception that aborts
  the Python run);
* the CSV input is modelled as the list of rows `csv.reader` yields.
-/

namespace Xero2Rabo

/-- The character for decimal digit `n % 10` (code point `48 + n % 10`). -/
def digitChar (n : Nat) : Char := Char.ofNat (48 + n % 10)

/-- Fuel-driven worker for `natDigits`; the fuel only bounds the recursion
depth (any fuel above the digit count gives the same value). -/
def natDigitsAux : Nat → Nat → List Char
  | 0, _ => []
  | fuel + 1, n =>
    if n < 10 then [digitChar n] else natDigitsAux fuel (n / 10) ++ [digitChar (n % 10)]

/-- Decimal digits of a natural number, most significant first: the rendering
Python's `str`/`'{}'.format` produces for a nonnegative `int`. -/
def natDigits (n : Nat) : List Char := natDigitsAux (n + 1) n

/-- Python `str(n)` for a nonnegative integer. -/
def natToStr (n : Nat) : String := ⟨natDigits n⟩

/-- Python `'{:0wd}'.format(n)` for nonnegative `n`: decimal digits, left
zero-padded to minimum width `w`. -/
def padNum (w : Nat) (n : Nat) : String :=
  ⟨List.replicate (w - (natDigits n).length) '0' ++ natDigits n⟩

/-- Python `str.zfill(w)`: left-pad with `'0'` to width `w`; when the string
starts with a sign character, the zeros are inserted after the sign. -/
def zfill (s : String) (w : Nat) : String :=
  if w ≤ s.length then s
  else
    match s.data with
    | [] => ⟨List.replicate w '0'⟩
    | c :: rest =>
      if c = '+' ∨ c = '-' then ⟨c :: (List.replicate (w - s.length) '0' ++ rest)⟩
      else ⟨List.replicate (w - s.length) '0' ++ (c :: rest)⟩

/-- A value of Python's naive `datetime` (as produced by `datetime.now()`,
which attaches no timezone). -/
structure DateTime where
  year : Nat
  month : Nat
  day : Nat
  hour : Nat
  minute : Nat
  second : Nat
  microsecond : Nat
deriving DecidableEq, Repr

/-- The field ranges Python's `datetime` guarantees. -/
def DateTime.Valid (d : DateTime) : Prop :=
  1 ≤ d.year ∧ d.year ≤ 9999 ∧ 1 ≤ d.month ∧ d.month ≤ 12 ∧ 1 ≤ d.day ∧ d.day ≤ 31 ∧
    d.hour ≤ 23 ∧ d.minute ≤ 59 ∧ d.second ≤ 59 ∧ d.microsecond ≤ 999999

instance (d : DateTime) : Decidable d.Valid := by
  unfold DateTime.Valid; infer_instance

/-- `string.ascii_lowercase + string.digits`, the alphabet the random suffix
of a message id is drawn from. -/
def choiceAlphabet : List Char := "abcdefghijklmnopqrstuvwxyz0123456789".data

/-- `random.choice(seq)`: the element of `seq` selected by one draw `r` from
the random source (any value of `r` selects some element). -/
def randChoice (seq : List Char) (r : Nat) : Char := seq.getD (r % seq.length) '?'

/-- `createMsgId` (xero2rabo.py lines 25-32): normalized prefix, then
`-<year><month:02><day:02><hour:02><minute:02><second:02>-`, then 7 draws
from the lowercase-alphanumeric alphabet.  The module-level `now` and the
stream of `random.choice` draws are explicit arguments. -/
def createMsgId (pfx : String) (now : DateTime) (rand : Nat → Nat) : String :=
  let id0 := if pfx.length > 4 then ⟨pfx.data.take 5⟩ else zfill pfx 5
  let id1 := id0 ++ "-" ++ natToStr now.year ++ padNum 2 now.month ++ padNum 2 now.day ++
    padNum 2 now.hour ++ padNum 2 now.minute ++ padNum 2 now.second ++ "-"
  id1 ++ ⟨(List.range 7).map (fun k => randChoice choiceAlphabet (rand k))⟩

/-- Python `datetime.isoformat()` on a naive value: `YYYY-MM-DDTHH:MM:SS`,
with `.ffffff` appended only when the microsecond field is nonzero. -/
def isoformat (d : DateTime) : String :=
  padNum 4 d.year ++ "-" ++ padNum 2 d.month ++ "-" ++ padNum 2 d.day ++ "T" ++
    padNum 2 d.hour ++ ":" ++ padNum 2 d.minute ++ ":" ++ padNum 2 d.second ++
    (if d.microsecond = 0 then "" else "." ++ padNum 6 d.microsecond)

/-- Python `s.split('.')[0]`: the part of `s` before its first dot. -/
def splitDotHead (s : String) : String := ⟨s.data.takeWhile (fun c => c != '.')⟩

/-- Python `d.date().isoformat()`: `YYYY-MM-DD`. -/
def dateIso (d : DateTime) : String :=
  padNum 4 d.year ++ "-" ++ padNum 2 d.month ++ "-" ++ padNum 2 d.day

mutual

/-- An `xml.etree.ElementTree` element: tag, attributes, text content and
child elements in document order.  The children are carried by the mutually
defined `ElementList` so that every traversal below is structurally
recursive. -/
inductive Element where
  | mk (tag : String) (attrib : List (String × String)) (text : Option String)
      (children : ElementList)

/-- A list of sibling elements, in document order. -/
inductive ElementList where
  | nil
  | cons (e : Element) (es : ElementList)

end

def Element.tag : Element → String
  | .mk t _ _ _ => t

def Element.attrib : Element → List (String × String)
  | .mk _ a _ _ => a

def Element.text : Element → Option String
  | .mk _ _ x _ => x

def Element.children : Element → ElementList
  | .mk _ _ _ c => c

/-- The assignment `e.text = s`. -/
def Element.withText (s : String) : Element → Element
  | .mk t a _ c => .mk t a (some s) c

/-- `ElementList` as an ordinary list, for stating properties. -/
def ElementList.toList : ElementList → List Element
  | .nil => []
  | .cons e es => e :: es.toList

/-- Concatenation of sibling lists (the net effect of repeated `append`). -/
def ElementList.cat : ElementList → ElementList → ElementList
  | .nil, ys => ys
  | .cons e es, ys => .cons e (es.cat ys)

mutual

/-- Value equality of elements.  Python compares elements by identity; every
comparison the embedded code makes is against a subtree taken from the same
tree, where identity and value equality agree because the modelled template
has no duplicated transaction block. -/
def Element.beq : Element → Element → Bool
  | .mk t1 a1 x1 c1, .mk t2 a2 x2 c2 =>
    t1 == t2 && a1 == a2 && x1 == x2 && ElementList.beq c1 c2

def ElementList.beq : ElementList → ElementList → Bool
  | .nil, .nil => true
  | .cons e es, .cons f fs => Element.beq e f && ElementList.beq es fs
  | _, _ => false

end

mutual

/-- Tail of an ElementTree path (`/t1/t2/...` after the first step): within
`e`, the first chain of children matching the remaining tags, children being
scanned in document order at each level. -/
def chainFind : List String → Element → Option Element
  | [], e => some e
  | t :: rest, .mk _ _ _ cs => chainFindL t rest cs

def chainFindL : String → List String → ElementList → Option Element
  | _, _, .nil => none
  | t, rest, .cons c cs =>
    if c.tag == t then
      match chainFind rest c with
      | some r => some r
      | none => chainFindL t rest cs
    else chainFindL t rest cs

end

mutual

/-- ElementTree `find('.//t/rest...')` over sibling subtrees: the first match
in document order, the leading tag `t` being matched against every descendant
(pre-order), the rest against chains of children below it. -/
def descFind (t : String) (rest : List String) : ElementList → Option Element
  | .nil => none
  | .cons e es =>
    match (if e.tag == t then chainFind rest e else none) with
    | some r => some r
    | none =>
      match descFindInner t rest e with
      | some r => some r
      | none => descFind t rest es

def descFindInner (t : String) (rest : List String) : Element → Option Element
  | .mk _ _ _ cs => descFind t rest cs

end

mutual

/-- Functional counterpart of mutating the element a chain search returns:
rewrite the first match through `f`; `none` when there is no match or `f`
fails. -/
def updChain (f : Element → Option Element) : List String → Element → Option Element
  | [], e => f e
  | t :: rest, .mk tg a x cs =>
    match updChainL f t rest cs with
    | some cs' => some (.mk tg a x cs')
    | none => none

def updChainL (f : Element → Option Element) (t : String) (rest : List String) :
    ElementList → Option ElementList
  | .nil => none
  | .cons c cs =>
    if c.tag == t then
      match updChain f rest c with
      | some c' => some (.cons c' cs)
      | none =>
        match updChainL f t rest cs with
        | some cs' => some (.cons c cs')
        | none => none
    else
      match updChainL f t rest cs with
      | some cs' => some (.cons c cs')
      | none => none

end

mutual

/-- Companion of `descFind` for updates: rewrite the first `.//t/rest...`
match through `f`, same search order. -/
def updDesc (f : Element → Option Element) (t : String) (rest : List String) :
    ElementList → Option ElementList
  | .nil => none
  | .cons e es =>
    match (if e.tag == t then updChain f rest e else none) with
    | some e' => some (.cons e' es)
    | none =>
      match updDescInner f t rest e with
      | some e' => some (.cons e' es)
      | none =>
        match updDesc f t rest es with
        | some es' => some (.cons e es')
        | none => none

def updDescInner (f : Element → Option Element) (t : String) (rest : List String) :
    Element → Option Element
  | .mk tg a x cs =>
    match updDesc f t rest cs with
    | some cs' => some (.mk tg a x cs')
    | none => none

end

/-- Apply `f` to the first `root.find('.//path')` match, rebuilding the tree;
`none` models the exception raised when `find` returns `None` or `f` fails. -/
def updAt (root : Element) (path : List String) (f : Element → Option Element) :
    Option Element :=
  match path, root with
  | [], _ => none
  | t :: rest, .mk tg a x cs =>
    match updDesc f t rest cs with
    | some cs' => some (.mk tg a x cs')
    | none => none

/-- `root.find('.//path').text = txt`: set the text of the first match;
`none` models the AttributeError raised when the node is absent. -/
def setText (root : Element) (path : List String) (txt : String) : Option Element :=
  updAt root path (fun e => some (e.withText txt))

/-- Python `list.remove(v)`: drop the first occurrence of `v`; `none` models
the ValueError raised when `v` is not in the list. -/
def removeFirst (v : Element) : ElementList → Option ElementList
  | .nil => none
  | .cons c cs =>
    if Element.beq c v then some cs
    else
      match removeFirst v cs with
      | some cs' => some (.cons c cs')
      | none => none

/-- One credit transaction, the dict `get_credit_transactions` yields. -/
structure Tx where
  amount : String
  iban : String
  creditor_name : String
  descr : String
deriving DecidableEq, Repr

/-- Loop body of `get_credit_transactions` (line 39): positional access into
one CSV row; `none` models the IndexError a short row raises. -/
def txOfRow (row : List String) : Option Tx := do
  let a ← row.get? 0
  let i ← row.get? 1
  let n ← row.get? 2
  let d ← row.get? 4
  pure { amount := a, iban := i, creditor_name := n, descr := d }

/-- `get_credit_transactions` (lines 35-39), over the list of rows
`csv.reader` yields for the input file, in file order. -/
def get_credit_transactions (rows : List (List String)) : Option (List Tx) :=
  rows.mapM txOfRow

/-- The CLI options `process_xml` reads from `args` (lines 116-120). -/
structure Args where
  id_pfx : String
  initiating_party : String
  debtor_name : String
  debtor_account : String
  debtor_bic : String

/-- Loop body of the `for index, tx in enumerate(credit_transactions)` loop
(lines 90-108): fill one deep copy of the template transaction block.  With
value-semantics trees `copy.deepcopy` is the identity, so the block is used
directly and every update rebuilds it. -/
def fillTx (id1 : String) (index : Nat) (tx : Tx) (blk : Element) : Option Element := do
  let e ← setText blk ["EndToEndId"] (id1 ++ "-" ++ zfill (natToStr index) 4)
  let e ← setText e ["InstdAmt"] tx.amount
  let e ← setText e ["Cdtr", "Nm"] tx.creditor_name
  let e ← setText e ["CdtrAcct", "Id", "IBAN"] tx.iban
  let e ← setText e ["Ustrd"] tx.descr
  pure e

/-- The whole transaction loop: one filled copy of the template block per
transaction, in input order, with the running index threaded through; the
resulting siblings are appended to the payment block in this order. -/
def fillLoop (id1 : String) (blk : Element) : Nat → List Tx → Option ElementList
  | _, [] => some .nil
  | index, tx :: rest => do
    let e ← fillTx id1 index tx blk
    let es ← fillLoop id1 blk (index + 1) rest
    pure (.cons e es)

/-- The final mutation of the payment-information node (lines 87-108 in
net effect): `parent.remove(cdtTrfTxInf)` followed by appending the filled
blocks, expressed as the rewriting applied at the `PmtInf` node. -/
def replaceBlocks (cdt : Element) (filled : ElementList) (p : Element) : Option Element :=
  match p with
  | .mk tg a x cs =>
    match removeFirst cdt cs with
    | some cs' => some (.mk tg a x (cs'.cat filled))
    | none => none

/-- `process_xml` (lines 42-109).  The template tree stands for
`ET.parse('sepa-template.xml')`, `rows` for the CSV rows of
`args.input_file`, `now` for the module-level `datetime.now()` capture and
`rand` for the `random.choice` draws.  `none` models an uncaught exception
(absent template node, short row): the run aborts and returns no document. -/
def process_xml (args : Args) (template : Element) (rows : List (List String))
    (now : DateTime) (rand : Nat → Nat) : Option Element := do
  let root := template
  let credit_transactions ← get_credit_transactions rows
  let id0 := createMsgId args.id_pfx now rand
  let root ← setText root ["MsgId"] id0
  let root ← setText root ["CreDtTm"] (splitDotHead (isoformat now))
  let root ← setText root ["NbOfTxs"] (natToStr credit_transactions.length)
  let root ← setText root ["InitgPty", "Nm"] args.initiating_party
  let id1 := id0 ++ "-1"
  let root ← setText root ["PmtInfId"] id1
  let root ← setText root ["ReqdExctnDt"] (dateIso now)
  let root ← setText root ["Dbtr", "Nm"] args.debtor_name
  let root ← setText root ["DbtrAcct", "Id", "IBAN"] args.debtor_account
  let root ← setText root ["DbtrAgt", "FinInstnId", "BIC"] args.debtor_bic
  let cdtTrfTxInf ← descFind "CdtTrfTxInf" [] root.children
  let filled ← fillLoop id1 cdtTrfTxInf 0 credit_transactions
  updAt root ["PmtInf"] (replaceBlocks cdtTrfTxInf filled)

/-- A leaf element with text and no attributes. -/
def leaf (t : String) (s : String) : Element := .mk t [] (some s) .nil

/-- Sibling-list literal notation helper. -/
def elist : List Element → ElementList
  | [] => .nil
  | e :: es => .cons e (elist es)

/-- Modelled from the spec: the sample transaction block of the external
template resource `sepa-template.xml`, which is not part of the source tree.
Per spec sections 3 and 6 the template's single payment-information block
nests exactly one transaction block carrying the end-to-end-id,
instructed-amount (with its currency attribute), creditor-name,
creditor-IBAN and unstructured-remittance leaf fields. -/
def sepaTxBlock : Element :=
  .mk "CdtTrfTxInf" [] none (elist
    [ .mk "PmtId" [] none (elist [leaf "EndToEndId" ""]),
      .mk "Amt" [] none (elist [.mk "InstdAmt" [("Ccy", "EUR")] (some "") .nil]),
      .mk "Cdtr" [] none (elist [leaf "Nm" ""]),
      .mk "CdtrAcct" [] none (elist [.mk "Id" [] none (elist [leaf "IBAN" ""])]),
      .mk "RmtInf" [] none (elist [leaf "Ustrd" ""]) ])

/-- Modelled from the spec: the external template resource
`sepa-template.xml` (absent from the source tree).  Per spec section 6 it is
a namespaced pain.001.001.03 document with one header section, one
payment-information section containing exactly one sample transaction block,
plus the enumerated header/party/debtor leaf fields. -/
def sepaTemplate : Element :=
  .mk "Document" [("xmlns", "urn:iso:std:iso:20022:tech:xsd:pain.001.001.03")] none (elist
    [ .mk "CstmrCdtTrfInitn" [] none (elist
      [ .mk "GrpHdr" [] none (elist
        [ leaf "MsgId" "", leaf "CreDtTm" "", leaf "NbOfTxs" "",
          .mk "InitgPty" [] none (elist [leaf "Nm" ""]) ]),
        .mk "PmtInf" [] none (elist
        [ leaf "PmtInfId" "", leaf "PmtMtd" "TRF", leaf "ReqdExctnDt" "",
          .mk "Dbtr" [] none (elist [leaf "Nm" ""]),
          .mk "DbtrAcct" [] none (elist [.mk "Id" [] none (elist [leaf "IBAN" ""])]),
          .mk "DbtrAgt" [] none (elist [.mk "FinInstnId" [] none (elist [leaf "BIC" ""])]),
          leaf "ChrgBr" "SLEV",
          sepaTxBlock ]) ]) ])


def filledBlock (id1 : String) (index : Nat) (tx : Tx) : Element :=
  .mk "CdtTrfTxInf" [] none (elist
    [ .mk "PmtId" [] none (elist [leaf "EndToEndId" (id1 ++ "-" ++ zfill (natToStr index) 4)]),
      .mk "Amt" [] none (elist [.mk "InstdAmt" [("Ccy", "EUR")] (some tx.amount) .nil]),
      .mk "Cdtr" [] none (elist [leaf "Nm" tx.creditor_name]),
      .mk "CdtrAcct" [] none (elist [.mk "Id" [] none (elist [leaf "IBAN" tx.iban])]),
      .mk "RmtInf" [] none (elist [leaf "Ustrd" tx.descr]) ])

theorem fillTx_sepa (id1 : String) (index : Nat) (tx : Tx) :
    fillTx id1 index tx sepaTxBlock = some (filledBlock id1 index tx) := rfl

def filledBlocks (id1 : String) : Nat → List Tx → List Element
  | _, [] => []
  | i, tx :: rest => filledBlock id1 i tx :: filledBlocks id1 (i + 1) rest

theorem fillLoop_sepa (id1 : String) (txs : List Tx) (i : Nat) :
    fillLoop id1 sepaTxBlock i txs = some (elist (filledBlocks id1 i txs)) := by
  induction txs generalizing i with
  | nil => rfl
  | cons tx rest ih =>
    simp only [fillLoop, fillTx_sepa, ih, filledBlocks, elist, Option.bind_eq_bind,
      Option.some_bind]
    rfl

/-- The non-transaction children of the payment-information section, with
their texts made explicit. -/
def hdrPmtLeaves (pmtinfid reqd dbtrnm dbtriban dbtrbic : String) : List Element :=
  [ leaf "PmtInfId" pmtinfid, leaf "PmtMtd" "TRF", leaf "ReqdExctnDt" reqd,
    .mk "Dbtr" [] none (elist [leaf "Nm" dbtrnm]),
    .mk "DbtrAcct" [] none (elist [.mk "Id" [] none (elist [leaf "IBAN" dbtriban])]),
    .mk "DbtrAgt" [] none (elist [.mk "FinInstnId" [] none (elist [leaf "BIC" dbtrbic])]) ,
    leaf "ChrgBr" "SLEV" ]

/-- The template tree with the nine header texts made explicit and the tail
of the payment-information children (the transaction blocks) a parameter. -/
def hdrDoc (msgid credttm nb initg pmtinfid reqd dbtrnm dbtriban dbtrbic : String)
    (txTail : ElementList) : Element :=
  .mk "Document" [("xmlns", "urn:iso:std:iso:20022:tech:xsd:pain.001.001.03")] none (elist
    [ .mk "CstmrCdtTrfInitn" [] none (elist
      [ .mk "GrpHdr" [] none (elist
        [ leaf "MsgId" msgid, leaf "CreDtTm" credttm, leaf "NbOfTxs" nb,
          .mk "InitgPty" [] none (elist [leaf "Nm" initg]) ]),
        .mk "PmtInf" [] none
          ((elist (hdrPmtLeaves pmtinfid reqd dbtrnm dbtriban dbtrbic)).cat txTail) ]) ])

theorem sepaTemplate_hdr :
    sepaTemplate = hdrDoc "" "" "" "" "" "" "" "" "" (.cons sepaTxBlock .nil) := rfl

theorem set_msgid (a b c d e f g h i v : String) (tl : ElementList) :
    setText (hdrDoc a b c d e f g h i tl) ["MsgId"] v =
      some (hdrDoc v b c d e f g h i tl) := rfl

theorem set_credttm (a b c d e f g h i v : String) (tl : ElementList) :
    setText (hdrDoc a b c d e f g h i tl) ["CreDtTm"] v =
      some (hdrDoc a v c d e f g h i tl) := rfl

theorem set_nboftxs (a b c d e f g h i v : String) (tl : ElementList) :
    setText (hdrDoc a b c d e f g h i tl) ["NbOfTxs"] v =
      some (hdrDoc a b v d e f g h i tl) := rfl

theorem set_initg (a b c d e f g h i v : String) (tl : ElementList) :
    setText (hdrDoc a b c d e f g h i tl) ["InitgPty", "Nm"] v =
      some (hdrDoc a b c v e f g h i tl) := rfl

theorem set_pmtinfid (a b c d e f g h i v : String) (tl : ElementList) :
    setText (hdrDoc a b c d e f g h i tl) ["PmtInfId"] v =
      some (hdrDoc a b c d v f g h i tl) := rfl

theorem set_reqd (a b c d e f g h i v : String) (tl : ElementList) :
    setText (hdrDoc a b c d e f g h i tl) ["ReqdExctnDt"] v =
      some (hdrDoc a b c d e v g h i tl) := rfl

theorem set_dbtrnm (a b c d e f g h i v : String) (tl : ElementList) :
    setText (hdrDoc a b c d e f g h i tl) ["Dbtr", "Nm"] v =
      some (hdrDoc a b c d e f v h i tl) := rfl

theorem set_dbtriban (a b c d e f g h i v : String) (tl : ElementList) :
    setText (hdrDoc a b c d e f g h i tl) ["DbtrAcct", "Id", "IBAN"] v =
      some (hdrDoc a b c d e f g v i tl) := rfl

theorem set_dbtrbic (a b c d e f g h i v : String) (tl : ElementList) :
    setText (hdrDoc a b c d e f g h i tl) ["DbtrAgt", "FinInstnId", "BIC"] v =
      some (hdrDoc a b c d e f g h v tl) := rfl

theorem find_cdt (a b c d e f g h i : String) :
    descFind "CdtTrfTxInf" []
      (hdrDoc a b c d e f g h i (.cons sepaTxBlock .nil)).children = some sepaTxBlock := rfl

theorem upd_pmtinf (a b c d e f g h i : String) (filled : ElementList) :
    updAt (hdrDoc a b c d e f g h i (.cons sepaTxBlock .nil)) ["PmtInf"]
      (replaceBlocks sepaTxBlock filled) = some (hdrDoc a b c d e f g h i filled) := rfl

/-- The populated output document. -/
def builtDoc (args : Args) (now : DateTime) (rand : Nat → Nat) (n : Nat)
    (blocks : List Element) : Element :=
  hdrDoc (createMsgId args.id_pfx now rand) (splitDotHead (isoformat now)) (natToStr n)
    args.initiating_party (createMsgId args.id_pfx now rand ++ "-1") (dateIso now)
    args.debtor_name args.debtor_account args.debtor_bic (elist blocks)

theorem process_xml_sepa (args : Args) (rows : List (List String)) (txs : List Tx)
    (now : DateTime) (rand : Nat → Nat)
    (hrows : get_credit_transactions rows = some txs) :
    process_xml args sepaTemplate rows now rand =
      some (builtDoc args now rand txs.length
        (filledBlocks (createMsgId args.id_pfx now rand ++ "-1") 0 txs)) := by
  unfold process_xml
  rw [hrows, sepaTemplate_hdr]
  simp only [Option.bind_eq_bind, Option.some_bind, set_msgid, set_credttm, set_nboftxs,
    set_initg, set_pmtinfid, set_reqd, set_dbtrnm, set_dbtriban, set_dbtrbic, find_cdt,
    fillLoop_sepa, upd_pmtinf, builtDoc]


/-- The decimal digit characters. -/
def decChars : List Char := "0123456789".data

theorem digitChar_mem (n : Nat) : digitChar n ∈ decChars := by
  have h : n % 10 < 10 := Nat.mod_lt _ (by omega)
  unfold digitChar
  set m := n % 10 with hm
  interval_cases m <;> decide

theorem natDigitsAux_fuel (f1 : Nat) : ∀ f2 n, n < f1 → n < f2 →
    natDigitsAux f1 n = natDigitsAux f2 n := by
  induction f1 using Nat.strong_induction_on with
  | _ f1 ih =>
    intro f2 n h1 h2
    match f1, f2 with
    | fa + 1, fb + 1 =>
      simp only [natDigitsAux]
      by_cases h : n < 10
      · simp [h]
      · have hd : n / 10 < n := Nat.div_lt_self (by omega) (by omega)
        simp only [if_neg h]
        rw [ih fa (by omega) fb (n / 10) (by omega) (by omega)]

theorem natDigits_eq (n : Nat) : natDigits n =
    if n < 10 then [digitChar n] else natDigits (n / 10) ++ [digitChar (n % 10)] := by
  show natDigitsAux (n + 1) n = _
  rw [natDigitsAux]
  by_cases h : n < 10
  · simp [h]
  · have hd : n / 10 < n := Nat.div_lt_self (by omega) (by omega)
    simp only [if_neg h]
    rw [natDigitsAux_fuel n (n / 10 + 1) (n / 10) (by omega) (by omega)]
    rfl

theorem natDigits_mem (n : Nat) : ∀ c ∈ natDigits n, c ∈ decChars := by
  induction n using Nat.strong_induction_on with
  | _ n ih =>
    intro c hc
    rw [natDigits_eq] at hc
    by_cases h : n < 10
    · rw [if_pos h, List.mem_singleton] at hc
      exact hc ▸ digitChar_mem n
    · rw [if_neg h, List.mem_append] at hc
      rcases hc with hc | hc
      · exact ih (n / 10) (Nat.div_lt_self (by omega) (by omega)) c hc
      · rw [List.mem_singleton] at hc
        exact hc ▸ digitChar_mem (n % 10)

theorem natDigits_length_pos (n : Nat) : 0 < (natDigits n).length := by
  rw [natDigits_eq]
  by_cases h : n < 10 <;> simp [h]

theorem natDigits_length_le (k : Nat) : ∀ n, n < 10 ^ (k + 1) → (natDigits n).length ≤ k + 1 := by
  induction k with
  | zero =>
    intro n h
    rw [natDigits_eq, if_pos (by omega)]
    simp
  | succ k ih =>
    intro n h
    rw [natDigits_eq]
    by_cases h10 : n < 10
    · simp [h10]
    · rw [if_neg h10]
      have hdiv : n / 10 < 10 ^ (k + 1) := by
        rw [Nat.div_lt_iff_lt_mul (by omega)]
        calc n < 10 ^ (k + 2) := h
        _ = 10 ^ (k + 1) * 10 := by ring
      have := ih (n / 10) hdiv
      simp only [List.length_append, List.length_singleton]
      omega

theorem natDigits_length_ge (k : Nat) : ∀ n, 10 ^ k ≤ n → k + 1 ≤ (natDigits n).length := by
  induction k with
  | zero => intro n _; have := natDigits_length_pos n; omega
  | succ k ih =>
    intro n h
    have h10 : 10 ≤ n := le_trans (by calc (10:Nat) = 10 ^ 1 := by ring
      _ ≤ 10 ^ (k + 1) := Nat.pow_le_pow_right (by omega) (by omega)) h
    rw [natDigits_eq, if_neg (by omega)]
    have hdiv : 10 ^ k ≤ n / 10 := by
      rw [Nat.le_div_iff_mul_le (by omega)]
      calc 10 ^ k * 10 = 10 ^ (k + 1) := by ring
      _ ≤ n := h
    have := ih (n / 10) hdiv
    simp only [List.length_append, List.length_singleton]
    omega

theorem natDigits_length_four (n : Nat) (h1 : 1000 ≤ n) (h2 : n ≤ 9999) :
    (natDigits n).length = 4 := by
  have hle := natDigits_length_le 3 n (by omega)
  have hge := natDigits_length_ge 3 n (by norm_num; omega)
  omega


theorem decChars_not_dot : ∀ c ∈ decChars, (c != '.') = true := by decide

theorem decChars_not_sign : ∀ c ∈ decChars, c ≠ '+' ∧ c ≠ '-' := by decide

theorem padNum_data (w n : Nat) :
    (padNum w n).data = List.replicate (w - (natDigits n).length) '0' ++ natDigits n := rfl

theorem natToStr_data (n : Nat) : (natToStr n).data = natDigits n := rfl

theorem padNum_mem (w n : Nat) : ∀ c ∈ (padNum w n).data, c ∈ decChars := by
  intro c hc
  rw [padNum_data, List.mem_append] at hc
  rcases hc with hc | hc
  · rw [List.eq_of_mem_replicate hc]; decide
  · exact natDigits_mem n c hc

theorem padNum_data_length (w n : Nat) (h : (natDigits n).length ≤ w) :
    (padNum w n).data.length = w := by
  rw [padNum_data]
  simp [List.length_replicate]
  omega

theorem padNum_eq_natToStr (n : Nat) (h : 1000 ≤ n) (h2 : n ≤ 9999) :
    padNum 4 n = natToStr n := by
  unfold padNum natToStr
  rw [natDigits_length_four n h h2]
  norm_num

/-- Line 27's normalization:
`prefix[:5] if len(prefix) > 4 else prefix.zfill(5)`. -/
def normalizePfx (pfx : String) : String :=
  if pfx.length > 4 then ⟨pfx.data.take 5⟩ else zfill pfx 5

/-- The 7-character random suffix (line 31). -/
def msgSuffix (rand : Nat → Nat) : String :=
  ⟨(List.range 7).map (fun k => randChoice choiceAlphabet (rand k))⟩

theorem createMsgId_parts (pfx : String) (now : DateTime) (rand : Nat → Nat) :
    createMsgId pfx now rand =
      normalizePfx pfx ++ "-" ++ natToStr now.year ++ padNum 2 now.month ++ padNum 2 now.day ++
        padNum 2 now.hour ++ padNum 2 now.minute ++ padNum 2 now.second ++ "-" ++
        msgSuffix rand := rfl

theorem zfill_no_sign (s : String) (w : Nat)
    (h : ∀ c, s.data.head? = some c → c ≠ '+' ∧ c ≠ '-') :
    zfill s w = ⟨List.replicate (w - s.data.length) '0' ++ s.data⟩ := by
  obtain ⟨l⟩ := s
  unfold zfill
  by_cases hw : w ≤ String.length ⟨l⟩
  · rw [if_pos hw]
    rw [String.length_mk] at hw
    show (⟨l⟩ : String) = _
    rw [show w - (String.mk l).data.length = 0 from by
      simp only [String.data]; omega]
    rfl
  · rw [if_neg hw]
    cases l with
    | nil => simp
    | cons c rest =>
      have hc := h c rfl
      simp only [String.data]
      rw [if_neg (by tauto)]
      simp only [String.length_mk]

theorem zfill_data_length (s : String) (w : Nat) :
    (zfill s w).data.length = max w s.data.length := by
  obtain ⟨l⟩ := s
  unfold zfill
  by_cases hw : w ≤ String.length ⟨l⟩
  · rw [if_pos hw]
    rw [String.length_mk] at hw
    simp only [String.data]
    omega
  · rw [if_neg hw]
    rw [String.length_mk] at hw
    cases l with
    | nil => simp
    | cons c rest =>
      by_cases hs : c = '+' ∨ c = '-'
      · simp only [String.data, if_pos hs, List.length_cons, List.length_append,
          List.length_replicate, String.length_mk]
        omega
      · simp only [String.data, if_neg hs, List.length_cons, List.length_append,
          List.length_replicate, String.length_mk]
        omega

theorem natDigits_head_mem (i : Nat) :
    ∀ c, (natDigits i).head? = some c → c ∈ decChars := by
  intro c hc
  cases hdig : natDigits i with
  | nil => rw [hdig] at hc; simp at hc
  | cons d rest =>
    rw [hdig] at hc
    simp only [List.head?] at hc
    injection hc with hc
    subst hc
    exact natDigits_mem i d (by rw [hdig]; exact List.mem_cons_self _ _)

theorem zfill_natToStr (i w : Nat) : zfill (natToStr i) w = padNum w i := by
  rw [zfill_no_sign (natToStr i) w
    (fun c hc => decChars_not_sign c (natDigits_head_mem i c hc))]
  rfl

theorem normalizePfx_data_length (pfx : String) : (normalizePfx pfx).data.length = 5 := by
  obtain ⟨l⟩ := pfx
  unfold normalizePfx
  by_cases h : String.length ⟨l⟩ > 4
  · rw [if_pos h]
    rw [String.length_mk] at h
    simp only [String.data, List.length_take]
    omega
  · rw [if_neg h]
    rw [zfill_data_length]
    rw [String.length_mk] at h
    simp only [String.data]
    omega

theorem takeWhile_all {α : Type} (p : α → Bool) :
    ∀ l : List α, (∀ a ∈ l, p a = true) → l.takeWhile p = l := by
  intro l h
  induction l with
  | nil => rfl
  | cons a as ih =>
    rw [List.takeWhile_cons, h a (List.mem_cons_self _ _), if_pos rfl]
    rw [ih (fun b hb => h b (List.mem_cons_of_mem _ hb))]

theorem takeWhile_append_all {α : Type} (p : α → Bool) (l1 l2 : List α)
    (h : ∀ a ∈ l1, p a = true) :
    (l1 ++ l2).takeWhile p = l1 ++ l2.takeWhile p := by
  induction l1 with
  | nil => simp
  | cons a as ih =>
    rw [List.cons_append, List.takeWhile_cons, h a (List.mem_cons_self _ _), if_pos rfl]
    rw [ih (fun b hb => h b (List.mem_cons_of_mem _ hb))]
    rfl

theorem mk_data (s : String) : (⟨s.data⟩ : String) = s := by
  obtain ⟨l⟩ := s; rfl

theorem splitDotHead_no_dot (base : String)
    (hbase : ∀ c ∈ base.data, (c != '.') = true) :
    splitDotHead base = base := by
  unfold splitDotHead
  rw [takeWhile_all _ _ hbase, mk_data]

theorem splitDotHead_concat (base frac : String)
    (hbase : ∀ c ∈ base.data, (c != '.') = true) :
    splitDotHead (base ++ ("." ++ frac)) = base := by
  unfold splitDotHead
  rw [String.data_append, String.data_append]
  rw [show ("." : String).data = ['.'] from rfl]
  rw [takeWhile_append_all _ _ _ hbase]
  rw [show List.takeWhile (fun c => c != '.') (['.'] ++ frac.data) = [] from by
    rw [List.singleton_append, List.takeWhile_cons]; rfl]
  rw [List.append_nil, mk_data]

/-- The creation timestamp as written into the document: second precision,
no fraction, no timezone suffix. -/
theorem splitDotHead_isoformat (d : DateTime) :
    splitDotHead (isoformat d) =
      padNum 4 d.year ++ "-" ++ padNum 2 d.month ++ "-" ++ padNum 2 d.day ++ "T" ++
        padNum 2 d.hour ++ ":" ++ padNum 2 d.minute ++ ":" ++ padNum 2 d.second := by
  have hbase : ∀ c ∈ (padNum 4 d.year ++ "-" ++ padNum 2 d.month ++ "-" ++ padNum 2 d.day ++
      "T" ++ padNum 2 d.hour ++ ":" ++ padNum 2 d.minute ++ ":" ++ padNum 2 d.second).data,
      (c != '.') = true := by
    simp only [String.data_append, List.forall_mem_append]
    repeat' apply And.intro
    all_goals first
      | (intro c hc; exact decChars_not_dot c (padNum_mem _ _ c hc))
      | decide
  unfold isoformat
  by_cases hm : d.microsecond = 0
  · rw [if_pos hm]
    rw [show ∀ s : String, s ++ "" = s from fun ⟨l⟩ => congrArg String.mk (List.append_nil l)]
    exact splitDotHead_no_dot _ hbase
  · rw [if_neg hm]
    exact splitDotHead_concat _ _ hbase


theorem txOfRow_long (row : List String) (h : 5 ≤ row.length) :
    txOfRow row = some
      { amount := row.getD 0 "", iban := row.getD 1 "", creditor_name := row.getD 2 "",
        descr := row.getD 4 "" } := by
  match row, h with
  | a :: b :: c :: d :: e :: rest, _ => rfl

theorem txOfRow_short (row : List String) (h : row.length < 5) : txOfRow row = none := by
  match row, h with
  | [], _ => rfl
  | [a], _ => rfl
  | [a, b], _ => rfl
  | [a, b, c], _ => rfl
  | [a, b, c, d], _ => rfl

theorem get_credit_transactions_long (rows : List (List String))
    (h : ∀ r ∈ rows, 5 ≤ r.length) :
    get_credit_transactions rows = some (rows.map (fun r =>
      { amount := r.getD 0 "", iban := r.getD 1 "", creditor_name := r.getD 2 "",
        descr := r.getD 4 "" })) := by
  induction rows with
  | nil => rfl
  | cons r rs ih =>
    unfold get_credit_transactions at ih ⊢
    rw [List.mapM_cons, txOfRow_long r (h r (List.mem_cons_self _ _)),
      ih (fun x hx => h x (List.mem_cons_of_mem _ hx))]
    rfl

theorem get_credit_transactions_short (rows : List (List String))
    (h : ∃ r ∈ rows, r.length < 5) :
    get_credit_transactions rows = none := by
  obtain ⟨r, hmem, hlen⟩ := h
  induction rows with
  | nil => simp at hmem
  | cons x xs ih =>
    unfold get_credit_transactions
    rw [List.mapM_cons]
    rcases List.mem_cons.mp hmem with heq | hmem'
    · rw [txOfRow_short x (heq ▸ hlen)]
      rfl
    · cases hx : txOfRow x with
      | none => rfl
      | some tx =>
        have h2 := ih hmem'
        unfold get_credit_transactions at h2
        rw [h2]
        rfl

theorem txOfRow_ignores_pos3 (row : List String) (v : String) :
    txOfRow (row.set 3 v) = txOfRow row := by
  match row with
  | [] => rfl
  | [a] => rfl
  | [a, b] => rfl
  | [a, b, c] => rfl
  | a :: b :: c :: d :: rest => rfl


theorem elist_toList (l : List Element) : (elist l).toList = l := by
  induction l with
  | nil => rfl
  | cons e es ih => simp [elist, ElementList.toList, ih]

theorem cat_toList : (a b : ElementList) → (a.cat b).toList = a.toList ++ b.toList
  | .nil, b => rfl
  | .cons e es, b => by
    simp only [ElementList.cat, ElementList.toList, cat_toList es b, List.cons_append]

theorem filledBlocks_length (id1 : String) (txs : List Tx) :
    ∀ i, (filledBlocks id1 i txs).length = txs.length := by
  induction txs with
  | nil => intro i; rfl
  | cons tx rest ih => intro i; simp [filledBlocks, ih]

theorem filledBlocks_get (id1 : String) (txs : List Tx) :
    ∀ i k, (filledBlocks id1 i txs).get? k = (txs.get? k).map (fun tx => filledBlock id1 (i + k) tx) := by
  induction txs with
  | nil => intro i k; simp [filledBlocks]
  | cons tx rest ih =>
    intro i k
    cases k with
    | zero => simp [filledBlocks]
    | succ k' =>
      simp only [filledBlocks, List.get?_cons_succ]
      rw [ih (i + 1) k', show i + 1 + k' = i + (k' + 1) from by omega]

theorem filledBlocks_tag (id1 : String) (txs : List Tx) :
    ∀ i, ∀ e ∈ filledBlocks id1 i txs, e.tag = "CdtTrfTxInf" := by
  induction txs with
  | nil => intro i e he; simp [filledBlocks] at he
  | cons tx rest ih =>
    intro i e he
    rcases List.mem_cons.mp he with h | h
    · subst h; rfl
    · exact ih (i + 1) e h

theorem filledBlocks_mem (id1 : String) (txs : List Tx) :
    ∀ i, ∀ e ∈ filledBlocks id1 i txs, ∃ j tx, e = filledBlock id1 j tx := by
  induction txs with
  | nil => intro i e he; simp [filledBlocks] at he
  | cons tx rest ih =>
    intro i e he
    rcases List.mem_cons.mp he with h | h
    · exact ⟨i, tx, h⟩
    · exact ih (i + 1) e h

theorem filledBlocks_filter (id1 : String) (txs : List Tx) (i : Nat) :
    (filledBlocks id1 i txs).filter (fun e => e.tag == "CdtTrfTxInf") =
      filledBlocks id1 i txs :=
  List.filter_eq_self.mpr (fun e he => by
    rw [filledBlocks_tag id1 txs i e he]; rfl)

mutual

/-- Structural agreement of two elements: same tag, same attributes, same
child shape in the same order; text content is not compared. -/
def sameShape : Element → Element → Bool
  | .mk t1 a1 _ c1, .mk t2 a2 _ c2 => t1 == t2 && a1 == a2 && sameShapeL c1 c2

def sameShapeL : ElementList → ElementList → Bool
  | .nil, .nil => true
  | .cons e es, .cons f fs => sameShape e f && sameShapeL es fs
  | _, _ => false

end

theorem filledBlock_sameShape (id1 : String) (i : Nat) (tx : Tx) :
    sameShape (filledBlock id1 i tx) sepaTxBlock = true := rfl

theorem filledBlock_frame (id1 : String) (i : Nat) (tx : Tx) :
    ∀ p ∈ [["PmtId"], ["Amt"], ["Cdtr"], ["CdtrAcct"], ["CdtrAcct", "Id"], ["RmtInf"]],
      (chainFind p (filledBlock id1 i tx)).map (fun e => (e.tag, e.attrib, e.text)) =
        (chainFind p sepaTxBlock).map (fun e => (e.tag, e.attrib, e.text)) := by
  intro p hp
  fin_cases hp <;> rfl

theorem string_append_ne_empty (a b c : String) : a ++ "-" ++ b ++ c ≠ "" := by
  intro h
  have := congrArg (fun s => s.data.length) h
  simp only [String.data_append] at this
  simp [show ("-" : String).data = ['-'] from rfl, show ("" : String).data = [] from rfl] at this

theorem filledBlock_ne_sepaTxBlock (id1 : String) (i : Nat) (tx : Tx) :
    filledBlock id1 i tx ≠ sepaTxBlock := by
  intro h
  have h2 := congrArg (fun e => (chainFind ["PmtId", "EndToEndId"] e).map Element.text) h
  have hL : (chainFind ["PmtId", "EndToEndId"] (filledBlock id1 i tx)).map Element.text =
      some (some (id1 ++ "-" ++ zfill (natToStr i) 4)) := rfl
  have hR : (chainFind ["PmtId", "EndToEndId"] sepaTxBlock).map Element.text =
      some (some "") := rfl
  simp only [hL, hR] at h2
  have h3 : id1 ++ "-" ++ zfill (natToStr i) 4 = "" := by
    injection h2 with h2a
    injection h2a
  have := congrArg (fun s => s.data.length) h3
  simp only [String.data_append] at this
  simp [show ("-" : String).data = ['-'] from rfl, show ("" : String).data = [] from rfl] at this


/-- `root.find('.//path').text`: `none` when the node is absent (the
AttributeError-raising case), otherwise `some` of the node's text field. -/
def findText (doc : Element) : List String → Option (Option String)
  | [] => none
  | t :: rest => (descFind t rest doc.children).map Element.text

theorem hdr_find_msgid (a b c d e f g h i : String) (tl : ElementList) :
    findText (hdrDoc a b c d e f g h i tl) ["MsgId"] = some (some a) := rfl

theorem hdr_find_credttm (a b c d e f g h i : String) (tl : ElementList) :
    findText (hdrDoc a b c d e f g h i tl) ["CreDtTm"] = some (some b) := rfl

theorem hdr_find_nboftxs (a b c d e f g h i : String) (tl : ElementList) :
    findText (hdrDoc a b c d e f g h i tl) ["NbOfTxs"] = some (some c) := rfl

theorem hdr_find_initg (a b c d e f g h i : String) (tl : ElementList) :
    findText (hdrDoc a b c d e f g h i tl) ["InitgPty", "Nm"] = some (some d) := rfl

theorem hdr_find_pmtinfid (a b c d e f g h i : String) (tl : ElementList) :
    findText (hdrDoc a b c d e f g h i tl) ["PmtInfId"] = some (some e) := rfl

theorem hdr_find_reqd (a b c d e f g h i : String) (tl : ElementList) :
    findText (hdrDoc a b c d e f g h i tl) ["ReqdExctnDt"] = some (some f) := rfl

theorem hdr_find_pmtinf (a b c d e f g h i : String) (tl : ElementList) :
    descFind "PmtInf" [] (hdrDoc a b c d e f g h i tl).children =
      some (.mk "PmtInf" [] none ((elist (hdrPmtLeaves e f g h i)).cat tl)) := rfl

theorem hdrPmtLeaves_filter (e f g h i : String) :
    (hdrPmtLeaves e f g h i).filter (fun x => x.tag == "CdtTrfTxInf") = [] := rfl

theorem hdrPmtLeaves_not_mem (e f g h i : String) :
    sepaTxBlock ∉ hdrPmtLeaves e f g h i := by
  intro hmem
  simp only [hdrPmtLeaves, leaf, sepaTxBlock, List.mem_cons, List.not_mem_nil, or_false] at hmem
  rcases hmem with h | h | h | h | h | h | h <;> simpa [Element.tag] using congrArg Element.tag h

theorem length_eq_data (s : String) : s.length = s.data.length := by
  obtain ⟨l⟩ := s; rfl

theorem normalizePfx_length (pfx : String) : (normalizePfx pfx).length = 5 := by
  rw [length_eq_data, normalizePfx_data_length]

theorem msgSuffix_length (rand : Nat → Nat) : (msgSuffix rand).length = 7 := by
  rw [length_eq_data]
  simp [msgSuffix]

theorem randChoice_mem (r : Nat) : randChoice choiceAlphabet r ∈ choiceAlphabet := by
  unfold randChoice
  have h : r % choiceAlphabet.length < choiceAlphabet.length := Nat.mod_lt _ (by decide)
  rw [List.getD_eq_getElem _ _ h]
  exact List.getElem_mem h

theorem msgSuffix_mem (rand : Nat → Nat) : ∀ c ∈ (msgSuffix rand).data, c ∈ choiceAlphabet := by
  intro c hc
  simp only [msgSuffix, List.mem_map] at hc
  obtain ⟨k, _, hk⟩ := hc
  exact hk ▸ randChoice_mem (rand k)

theorem isPrefixOf_append_self (l t : List Char) : l.isPrefixOf (l ++ t) = true := by
  induction l with
  | nil => simp
  | cons a as ih => simp [List.isPrefixOf, ih]

theorem hdrPmtLeaves_length (e f g h i : String) : (hdrPmtLeaves e f g h i).length = 7 := rfl


/-- A representative module-load time (`now`) for concrete evaluations. -/
def nowDemo : DateTime := ⟨2026, 10, 12, 13, 14, 15, 0⟩

/-- A representative random source for concrete evaluations. -/
def randDemo : Nat → Nat := fun _ => 0


/-- The spec's words for prefix normalization (claim C4): if longer than 4
characters take the first 5, otherwise left-pad with zero characters to
length 5.  Stated from the spec, for comparison with the code's
`zfill`-based rule. -/
def normalizeSpecRule (p : String) : String :=
  if p.length > 4 then ⟨p.data.take 5⟩ else ⟨List.replicate (5 - p.length) '0' ++ p.data⟩

/-- C4 counterexample: for the prefix `"-AB"` the spec's left-pad rule gives
`"00-AB"`, but the generated id starts with `"-00AB"` (Python `zfill` keeps
a leading sign in front of the inserted zeros), so the id does not begin
with the left-padded prefix. -/
theorem c4_counterexample :
    normalizeSpecRule "-AB" = "00-AB" ∧
    ("00-AB".data.isPrefixOf (createMsgId "-AB" nowDemo randDemo).data) = false ∧
    ("-00AB".data.isPrefixOf (createMsgId "-AB" nowDemo randDemo).data) = true := by
  decide

/-- C4 (amended): the id begins with the prefix normalized to exactly 5
characters by the code's rule (`take 5` when longer than 4, otherwise Python
`zfill`); for prefixes that do not start with a sign character — including
the claim's examples and the empty default — `zfill` coincides with plain
left-padding by `'0'`. -/
theorem c4_pfx_normalization (pfx : String) (now : DateTime) (rand : Nat → Nat) :
    ((normalizePfx pfx).data.isPrefixOf (createMsgId pfx now rand).data) = true ∧
    normalizePfx pfx =
      (if pfx.length > 4 then (⟨pfx.data.take 5⟩ : String) else zfill pfx 5) ∧
    (normalizePfx pfx).length = 5 ∧
    ((∀ c, pfx.data.head? = some c → c ≠ '+' ∧ c ≠ '-') →
      normalizePfx pfx = normalizeSpecRule pfx) ∧
    normalizePfx "AB" = "000AB" ∧ normalizePfx "ABCDEFG" = "ABCDE" ∧
    normalizePfx "" = "00000" := by
  refine ⟨?_, rfl, normalizePfx_length pfx, ?_, by decide, by decide, by decide⟩
  · rw [createMsgId_parts]
    simp only [String.data_append, List.append_assoc]
    exact isPrefixOf_append_self _ _
  · intro h
    unfold normalizePfx normalizeSpecRule
    by_cases hl : pfx.length > 4
    · rw [if_pos hl, if_pos hl]
    · rw [if_neg hl, if_neg hl, zfill_no_sign pfx 5 h, length_eq_data]

theorem c4_pfx_normalization_witness :
    (∀ c, ("AB" : String).data.head? = some c → c ≠ '+' ∧ c ≠ '-') ∧
    normalizePfx "AB" = normalizeSpecRule "AB" :=
  ⟨by decide, (c4_pfx_normalization "AB" nowDemo randDemo).2.2.2.1 (by decide)⟩

/-- C8: after its first 5 characters the id is `-`, the timestamp digits
year(4) month(2) day(2) hour(2) minute(2) second(2), `-`, and exactly 7
characters from the 36-symbol alphabet {a-z, 0-9}.  The year is rendered
unpadded by the code, so its 4-digit form needs the (always true at run
time) hypothesis `1000 ≤ year`. -/
theorem c8_timestamp_segment (pfx : String) (now : DateTime) (rand : Nat → Nat)
    (hv : now.Valid) (hy : 1000 ≤ now.year) :
    ∃ suffix : List Char,
      (createMsgId pfx now rand).data.drop 5 =
        '-' :: ((padNum 4 now.year).data ++ (padNum 2 now.month).data ++
          (padNum 2 now.day).data ++ (padNum 2 now.hour).data ++
          (padNum 2 now.minute).data ++ (padNum 2 now.second).data ++ '-' :: suffix) ∧
      suffix.length = 7 ∧ ∀ c ∈ suffix, c ∈ choiceAlphabet := by
  refine ⟨(msgSuffix rand).data, ?_, ?_, msgSuffix_mem rand⟩
  · rw [createMsgId_parts, padNum_eq_natToStr now.year hy hv.2.1]
    simp only [String.data_append, List.append_assoc]
    rw [List.drop_left' (normalizePfx_data_length pfx)]
    rfl
  · rw [← length_eq_data, msgSuffix_length]

theorem c8_timestamp_segment_witness :
    (nowDemo.Valid ∧ 1000 ≤ nowDemo.year) ∧
    (∃ suffix : List Char,
      (createMsgId "AB" nowDemo randDemo).data.drop 5 =
        '-' :: ((padNum 4 nowDemo.year).data ++ (padNum 2 nowDemo.month).data ++
          (padNum 2 nowDemo.day).data ++ (padNum 2 nowDemo.hour).data ++
          (padNum 2 nowDemo.minute).data ++ (padNum 2 nowDemo.second).data ++ '-' :: suffix) ∧
      suffix.length = 7 ∧ ∀ c ∈ suffix, c ∈ choiceAlphabet) :=
  ⟨⟨by decide, by decide⟩, c8_timestamp_segment "AB" nowDemo randDemo (by decide) (by decide)⟩


theorem decChars_isDigit : ∀ c ∈ decChars, c.isDigit = true := by decide

theorem natDigits_le_two (n : Nat) (h : n ≤ 99) : (natDigits n).length ≤ 2 :=
  natDigits_length_le 1 n (by
    have h2 : (10 : Nat) ^ 2 = 100 := by norm_num
    omega)

theorem natDigits_le_four (n : Nat) (h : n ≤ 9999) : (natDigits n).length ≤ 4 :=
  natDigits_length_le 3 n (by
    have h2 : (10 : Nat) ^ 4 = 10000 := by norm_num
    omega)

theorem pad2_len (n : Nat) (h : n ≤ 99) : (padNum 2 n).data.length = 2 :=
  padNum_data_length 2 n (natDigits_le_two n h)

theorem pad4_len (n : Nat) (h : n ≤ 9999) : (padNum 4 n).data.length = 4 :=
  padNum_data_length 4 n (natDigits_le_four n h)

theorem filter_isDigit_pad (w n : Nat) :
    (padNum w n).data.filter (fun c => c.isDigit) = (padNum w n).data :=
  List.filter_eq_self.mpr (fun c hc => decChars_isDigit c (padNum_mem w n c hc))

/-- C9: the creation-timestamp field is the captured time truncated to whole
seconds, rendered local-time ISO 8601 with no sub-second fraction and no
timezone suffix, for every captured time (microsecond zero included). -/
theorem c9_creation_timestamp (args : Args) (rows : List (List String)) (txs : List Tx)
    (now : DateTime) (rand : Nat → Nat)
    (hrows : get_credit_transactions rows = some txs) :
    ∃ doc, process_xml args sepaTemplate rows now rand = some doc ∧
      findText doc ["CreDtTm"] =
        some (some (padNum 4 now.year ++ "-" ++ padNum 2 now.month ++ "-" ++
          padNum 2 now.day ++ "T" ++ padNum 2 now.hour ++ ":" ++ padNum 2 now.minute ++
          ":" ++ padNum 2 now.second)) := by
  refine ⟨_, process_xml_sepa args rows txs now rand hrows, ?_⟩
  unfold builtDoc
  rw [hdr_find_credttm, splitDotHead_isoformat]

theorem c9_creation_timestamp_witness :
    get_credit_transactions [] = some [] ∧
    (∃ doc, process_xml ⟨"", "", "", "", ""⟩ sepaTemplate [] nowDemo randDemo = some doc ∧
      findText doc ["CreDtTm"] =
        some (some (padNum 4 nowDemo.year ++ "-" ++ padNum 2 nowDemo.month ++ "-" ++
          padNum 2 nowDemo.day ++ "T" ++ padNum 2 nowDemo.hour ++ ":" ++
          padNum 2 nowDemo.minute ++ ":" ++ padNum 2 nowDemo.second))) :=
  ⟨rfl, c9_creation_timestamp ⟨"", "", "", "", ""⟩ [] [] nowDemo randDemo rfl⟩


/-- C10: all time-derived fields come from the single module-level clock
capture: the requested-execution-date is the date part (first 10 characters)
of the creation-timestamp, and the 14 digits at positions 6..19 of the
message id are exactly the digits of the creation-timestamp. -/
theorem c10_single_clock (args : Args) (rows : List (List String)) (txs : List Tx)
    (now : DateTime) (rand : Nat → Nat)
    (hrows : get_credit_transactions rows = some txs)
    (hv : now.Valid) (hy : 1000 ≤ now.year) :
    ∃ doc msgid credttm,
      process_xml args sepaTemplate rows now rand = some doc ∧
      findText doc ["MsgId"] = some (some msgid) ∧
      findText doc ["CreDtTm"] = some (some credttm) ∧
      findText doc ["ReqdExctnDt"] = some (some (⟨credttm.data.take 10⟩ : String)) ∧
      (msgid.data.drop 6).take 14 = credttm.data.filter (fun c => c.isDigit) := by
  obtain ⟨hy1, hy2, hm1, hm2, hd1, hd2, hh, hmi, hs, hms⟩ := hv
  have hourlen := pad2_len now.hour (by omega)
  have minlen := pad2_len now.minute (by omega)
  have seclen := pad2_len now.second (by omega)
  have molen := pad2_len now.month (by omega)
  have dylen := pad2_len now.day (by omega)
  have yrlen := pad4_len now.year (by omega)
  refine ⟨_, createMsgId args.id_pfx now rand,
    padNum 4 now.year ++ "-" ++ padNum 2 now.month ++ "-" ++ padNum 2 now.day ++ "T" ++
      padNum 2 now.hour ++ ":" ++ padNum 2 now.minute ++ ":" ++ padNum 2 now.second,
    process_xml_sepa args rows txs now rand hrows, ?_, ?_, ?_, ?_⟩
  · unfold builtDoc
    exact hdr_find_msgid _ _ _ _ _ _ _ _ _ _
  · unfold builtDoc
    rw [hdr_find_credttm, splitDotHead_isoformat]
  · unfold builtDoc
    rw [hdr_find_reqd]
    have hdecomp : (padNum 4 now.year ++ "-" ++ padNum 2 now.month ++ "-" ++
        padNum 2 now.day ++ "T" ++ padNum 2 now.hour ++ ":" ++ padNum 2 now.minute ++
        ":" ++ padNum 2 now.second).data =
        (dateIso now).data ++ ('T' :: ((padNum 2 now.hour).data ++ ':' ::
          ((padNum 2 now.minute).data ++ ':' :: (padNum 2 now.second).data))) := by
      simp [dateIso, String.data_append, List.append_assoc]
    have hlen : (dateIso now).data.length = 10 := by
      simp only [dateIso, String.data_append, List.length_append]
      rw [yrlen, molen, dylen]
      rfl
    rw [hdecomp, List.take_left' hlen, mk_data]
  · have hmsg : (createMsgId args.id_pfx now rand).data.drop 6 =
        (natToStr now.year).data ++ ((padNum 2 now.month).data ++ ((padNum 2 now.day).data ++
          ((padNum 2 now.hour).data ++ ((padNum 2 now.minute).data ++
          ((padNum 2 now.second).data ++ '-' :: (msgSuffix rand).data))))) := by
      have hlen6 : ((normalizePfx args.id_pfx).data ++ ['-']).length = 6 := by
        simp [normalizePfx_data_length, normalizePfx_length]
      rw [createMsgId_parts]
      simp only [String.data_append, List.append_assoc]
      rw [show ∀ R : List Char, (normalizePfx args.id_pfx).data ++ (['-'] ++ R) =
          ((normalizePfx args.id_pfx).data ++ ['-']) ++ R from
        fun R => (List.append_assoc _ _ _).symm]
      rw [List.drop_left' hlen6]
      rfl
    rw [hmsg]
    have hregroup : (natToStr now.year).data ++ ((padNum 2 now.month).data ++
        ((padNum 2 now.day).data ++ ((padNum 2 now.hour).data ++ ((padNum 2 now.minute).data ++
        ((padNum 2 now.second).data ++ '-' :: (msgSuffix rand).data))))) =
        ((natToStr now.year).data ++ (padNum 2 now.month).data ++ (padNum 2 now.day).data ++
          (padNum 2 now.hour).data ++ (padNum 2 now.minute).data ++ (padNum 2 now.second).data) ++
        '-' :: (msgSuffix rand).data := by
      simp [List.append_assoc]
    have hlen14 : ((natToStr now.year).data ++ (padNum 2 now.month).data ++
        (padNum 2 now.day).data ++ (padNum 2 now.hour).data ++ (padNum 2 now.minute).data ++
        (padNum 2 now.second).data).length = 14 := by
      simp only [List.length_append]
      rw [← padNum_eq_natToStr now.year hy hy2, yrlen, molen, dylen, hourlen, minlen, seclen]
    rw [hregroup, List.take_left' hlen14]
    have hfilter : (padNum 4 now.year ++ "-" ++ padNum 2 now.month ++ "-" ++
        padNum 2 now.day ++ "T" ++ padNum 2 now.hour ++ ":" ++ padNum 2 now.minute ++
        ":" ++ padNum 2 now.second).data.filter (fun c => c.isDigit) =
        (padNum 4 now.year).data ++ (padNum 2 now.month).data ++ (padNum 2 now.day).data ++
          (padNum 2 now.hour).data ++ (padNum 2 now.minute).data ++
          (padNum 2 now.second).data := by
      simp only [String.data_append, List.append_assoc, List.filter_append,
        show ("-" : String).data = ['-'] from rfl, show ("T" : String).data = ['T'] from rfl,
        show (":" : String).data = [':'] from rfl, List.filter_cons,
        show (fun c : Char => c.isDigit) '-' = false from by decide,
        show (fun c : Char => c.isDigit) 'T' = false from by decide,
        show (fun c : Char => c.isDigit) ':' = false from by decide,
        filter_isDigit_pad, Bool.false_eq_true, if_false, List.nil_append,
        List.filter_nil]
    rw [hfilter, padNum_eq_natToStr now.year hy hy2]

theorem c10_single_clock_witness :
    (get_credit_transactions [] = some [] ∧ nowDemo.Valid ∧ 1000 ≤ nowDemo.year) ∧
    (∃ doc msgid credttm,
      process_xml ⟨"AB", "ip", "dn", "da", "db"⟩ sepaTemplate [] nowDemo randDemo = some doc ∧
      findText doc ["MsgId"] = some (some msgid) ∧
      findText doc ["CreDtTm"] = some (some credttm) ∧
      findText doc ["ReqdExctnDt"] = some (some (⟨credttm.data.take 10⟩ : String)) ∧
      (msgid.data.drop 6).take 14 = credttm.data.filter (fun c => c.isDigit)) :=
  ⟨⟨rfl, by decide, by decide⟩,
    c10_single_clock ⟨"AB", "ip", "dn", "da", "db"⟩ [] [] nowDemo randDemo rfl
      (by decide) (by decide)⟩


theorem Element.children_mk (t : String) (a : List (String × String)) (x : Option String)
    (c : ElementList) : (Element.mk t a x c).children = c := rfl

theorem filled_find_e2e (id1 : String) (j : Nat) (tx : Tx) :
    findText (filledBlock id1 j tx) ["EndToEndId"] =
      some (some (id1 ++ "-" ++ zfill (natToStr j) 4)) := rfl

theorem filled_find_amt (id1 : String) (j : Nat) (tx : Tx) :
    findText (filledBlock id1 j tx) ["InstdAmt"] = some (some tx.amount) := rfl

theorem filled_find_cdtr (id1 : String) (j : Nat) (tx : Tx) :
    findText (filledBlock id1 j tx) ["Cdtr", "Nm"] = some (some tx.creditor_name) := rfl

theorem filled_find_iban (id1 : String) (j : Nat) (tx : Tx) :
    findText (filledBlock id1 j tx) ["CdtrAcct", "Id", "IBAN"] = some (some tx.iban) := rfl

theorem filled_find_ustrd (id1 : String) (j : Nat) (tx : Tx) :
    findText (filledBlock id1 j tx) ["Ustrd"] = some (some tx.descr) := rfl

theorem pmtInfChildren_filter (e f g h i : String) (tl : List Element)
    (htl : tl.filter (fun x => x.tag == "CdtTrfTxInf") = tl) :
    ((Element.mk "PmtInf" [] none
        ((elist (hdrPmtLeaves e f g h i)).cat (elist tl))).children.toList.filter
      (fun x => x.tag == "CdtTrfTxInf")) = tl := by
  rw [Element.children_mk, cat_toList, elist_toList, elist_toList, List.filter_append,
    hdrPmtLeaves_filter, htl, List.nil_append]

/-- C2: the payment-information id is the message id with `"-1"` appended;
the transaction block at output position `i` carries end-to-end-id
`<paymentInfoId>-<i zero-padded to 4>` and the amount, creditor name,
creditor IBAN and remittance text of input row `i`. -/
theorem c2_payment_ids_and_order (args : Args) (rows : List (List String)) (txs : List Tx)
    (now : DateTime) (rand : Nat → Nat)
    (hrows : get_credit_transactions rows = some txs) :
    ∃ doc pmtInf,
      process_xml args sepaTemplate rows now rand = some doc ∧
      findText doc ["PmtInfId"] = some (some (createMsgId args.id_pfx now rand ++ "-1")) ∧
      descFind "PmtInf" [] doc.children = some pmtInf ∧
      ∀ i, i < txs.length → ∃ blk tx,
        (pmtInf.children.toList.filter (fun e => e.tag == "CdtTrfTxInf")).get? i =
          some blk ∧
        txs.get? i = some tx ∧
        findText blk ["EndToEndId"] =
          some (some ((createMsgId args.id_pfx now rand ++ "-1") ++ "-" ++ padNum 4 i)) ∧
        zfill (natToStr i) 4 = padNum 4 i ∧
        findText blk ["InstdAmt"] = some (some tx.amount) ∧
        findText blk ["Cdtr", "Nm"] = some (some tx.creditor_name) ∧
        findText blk ["CdtrAcct", "Id", "IBAN"] = some (some tx.iban) ∧
        findText blk ["Ustrd"] = some (some tx.descr) := by
  refine ⟨_, _, process_xml_sepa args rows txs now rand hrows,
    (by unfold builtDoc; exact hdr_find_pmtinfid _ _ _ _ _ _ _ _ _ _),
    (by unfold builtDoc; exact hdr_find_pmtinf _ _ _ _ _ _ _ _ _ _), ?_⟩
  · intro i hi
    have htx : txs.get? i = some (txs.get ⟨i, hi⟩) := List.get?_eq_get hi
    refine ⟨filledBlock (createMsgId args.id_pfx now rand ++ "-1") i (txs.get ⟨i, hi⟩),
      txs.get ⟨i, hi⟩, ?_, htx, ?_, zfill_natToStr i 4, filled_find_amt _ _ _,
      filled_find_cdtr _ _ _, filled_find_iban _ _ _, filled_find_ustrd _ _ _⟩
    · rw [pmtInfChildren_filter _ _ _ _ _ _ (filledBlocks_filter _ _ _),
        filledBlocks_get _ txs 0 i, htx]
      simp
    · rw [← zfill_natToStr i 4]
      exact filled_find_e2e _ _ _

/-- C3: the transaction-count field is the decimal representation of the
number of input rows, the payment-information section holds exactly that
many transaction blocks, and the template's own block is gone. -/
theorem c3_count_and_no_template_block (args : Args) (rows : List (List String))
    (txs : List Tx) (now : DateTime) (rand : Nat → Nat)
    (hrows : get_credit_transactions rows = some txs) :
    ∃ doc pmtInf,
      process_xml args sepaTemplate rows now rand = some doc ∧
      findText doc ["NbOfTxs"] = some (some (natToStr txs.length)) ∧
      descFind "PmtInf" [] doc.children = some pmtInf ∧
      (pmtInf.children.toList.filter (fun e => e.tag == "CdtTrfTxInf")).length =
        txs.length ∧
      sepaTxBlock ∉ pmtInf.children.toList := by
  refine ⟨_, _, process_xml_sepa args rows txs now rand hrows,
    (by unfold builtDoc; exact hdr_find_nboftxs _ _ _ _ _ _ _ _ _ _),
    (by unfold builtDoc; exact hdr_find_pmtinf _ _ _ _ _ _ _ _ _ _), ?_, ?_⟩
  · rw [pmtInfChildren_filter _ _ _ _ _ _ (filledBlocks_filter _ _ _),
      filledBlocks_length]
  · rw [Element.children_mk, cat_toList, elist_toList, elist_toList]
    intro hmem
    rcases List.mem_append.mp hmem with h | h
    · exact hdrPmtLeaves_not_mem _ _ _ _ _ h
    · obtain ⟨j, tx, hj⟩ := filledBlocks_mem _ txs 0 _ h
      exact filledBlock_ne_sepaTxBlock _ _ _ hj.symm

/-- C5: each appended block is a deep copy of the template block: same tag,
attribute and child structure in the same order (`sameShape` ignores only
text), and the texts of all nodes other than the five replaced leaves are
unchanged from the template. -/
theorem c5_template_shape (args : Args) (rows : List (List String)) (txs : List Tx)
    (now : DateTime) (rand : Nat → Nat)
    (hrows : get_credit_transactions rows = some txs) :
    ∃ doc pmtInf,
      process_xml args sepaTemplate rows now rand = some doc ∧
      descFind "PmtInf" [] doc.children = some pmtInf ∧
      ∀ i, i < txs.length → ∃ blk,
        (pmtInf.children.toList.filter (fun e => e.tag == "CdtTrfTxInf")).get? i =
          some blk ∧
        sameShape blk sepaTxBlock = true ∧
        (∀ p ∈ [["PmtId"], ["Amt"], ["Cdtr"], ["CdtrAcct"], ["CdtrAcct", "Id"], ["RmtInf"]],
          (chainFind p blk).map (fun e => (e.tag, e.attrib, e.text)) =
            (chainFind p sepaTxBlock).map (fun e => (e.tag, e.attrib, e.text))) := by
  refine ⟨_, _, process_xml_sepa args rows txs now rand hrows,
    (by unfold builtDoc; exact hdr_find_pmtinf _ _ _ _ _ _ _ _ _ _), ?_⟩
  · intro i hi
    have htx : txs.get? i = some (txs.get ⟨i, hi⟩) := List.get?_eq_get hi
    refine ⟨filledBlock (createMsgId args.id_pfx now rand ++ "-1") i (txs.get ⟨i, hi⟩),
      ?_, filledBlock_sameShape _ _ _, filledBlock_frame _ _ _⟩
    rw [pmtInfChildren_filter _ _ _ _ _ _ (filledBlocks_filter _ _ _),
      filledBlocks_get _ txs 0 i, htx]
    simp

/-- Demo CSV rows (the spec's round-trip example). -/
def rowsDemo : List (List String) :=
  [["300.00", "NL23RABO0123456789", "A. de Vries", "Wages", "Wages1 Feb - 28 Feb"]]

/-- The transactions read from `rowsDemo`. -/
def txsDemo : List Tx :=
  [{ amount := "300.00", iban := "NL23RABO0123456789", creditor_name := "A. de Vries",
     descr := "Wages1 Feb - 28 Feb" }]

/-- Demo CLI options. -/
def argsDemo : Args :=
  { id_pfx := "ABCDE", initiating_party := "ACME", debtor_name := "ACME BV",
    debtor_account := "NL00RABO0000000001", debtor_bic := "RABONL2U" }

theorem c2_payment_ids_and_order_witness :
    get_credit_transactions rowsDemo = some txsDemo ∧
    (∃ doc pmtInf,
      process_xml argsDemo sepaTemplate rowsDemo nowDemo randDemo = some doc ∧
      findText doc ["PmtInfId"] =
        some (some (createMsgId argsDemo.id_pfx nowDemo randDemo ++ "-1")) ∧
      descFind "PmtInf" [] doc.children = some pmtInf ∧
      ∀ i, i < txsDemo.length → ∃ blk tx,
        (pmtInf.children.toList.filter (fun e => e.tag == "CdtTrfTxInf")).get? i =
          some blk ∧
        txsDemo.get? i = some tx ∧
        findText blk ["EndToEndId"] =
          some (some ((createMsgId argsDemo.id_pfx nowDemo randDemo ++ "-1") ++ "-" ++
            padNum 4 i)) ∧
        zfill (natToStr i) 4 = padNum 4 i ∧
        findText blk ["InstdAmt"] = some (some tx.amount) ∧
        findText blk ["Cdtr", "Nm"] = some (some tx.creditor_name) ∧
        findText blk ["CdtrAcct", "Id", "IBAN"] = some (some tx.iban) ∧
        findText blk ["Ustrd"] = some (some tx.descr)) :=
  ⟨rfl, c2_payment_ids_and_order argsDemo rowsDemo txsDemo nowDemo randDemo rfl⟩

theorem c3_count_witness :
    get_credit_transactions rowsDemo = some txsDemo ∧
    (∃ doc pmtInf,
      process_xml argsDemo sepaTemplate rowsDemo nowDemo randDemo = some doc ∧
      findText doc ["NbOfTxs"] = some (some (natToStr txsDemo.length)) ∧
      descFind "PmtInf" [] doc.children = some pmtInf ∧
      (pmtInf.children.toList.filter (fun e => e.tag == "CdtTrfTxInf")).length =
        txsDemo.length ∧
      sepaTxBlock ∉ pmtInf.children.toList) :=
  ⟨rfl, c3_count_and_no_template_block argsDemo rowsDemo txsDemo nowDemo randDemo rfl⟩

theorem c5_template_shape_witness :
    get_credit_transactions rowsDemo = some txsDemo ∧
    (∃ doc pmtInf,
      process_xml argsDemo sepaTemplate rowsDemo nowDemo randDemo = some doc ∧
      descFind "PmtInf" [] doc.children = some pmtInf ∧
      ∀ i, i < txsDemo.length → ∃ blk,
        (pmtInf.children.toList.filter (fun e => e.tag == "CdtTrfTxInf")).get? i =
          some blk ∧
        sameShape blk sepaTxBlock = true ∧
        (∀ p ∈ [["PmtId"], ["Amt"], ["Cdtr"], ["CdtrAcct"], ["CdtrAcct", "Id"], ["RmtInf"]],
          (chainFind p blk).map (fun e => (e.tag, e.attrib, e.text)) =
            (chainFind p sepaTxBlock).map (fun e => (e.tag, e.attrib, e.text)))) :=
  ⟨rfl, c5_template_shape argsDemo rowsDemo txsDemo nowDemo randDemo rfl⟩


/-- C6: the Record Reader yields one transaction per input row, preserving
order; fields are positional (amount 0, account id 1, creditor name 2,
description 4), position 3 is ignored, and the amount passes through as
text with no numeric or currency validation. -/
theorem c6_reader_positional (rows : List (List String)) (h : ∀ r ∈ rows, 5 ≤ r.length) :
    get_credit_transactions rows = some (rows.map (fun r =>
      { amount := r.getD 0 "", iban := r.getD 1 "", creditor_name := r.getD 2 "",
        descr := r.getD 4 "" })) ∧
    (∀ txs, get_credit_transactions rows = some txs → txs.length = rows.length) ∧
    (∀ row : List String, ∀ v, txOfRow (row.set 3 v) = txOfRow row) := by
  refine ⟨get_credit_transactions_long rows h, ?_, txOfRow_ignores_pos3⟩
  intro txs htxs
  rw [get_credit_transactions_long rows h] at htxs
  injection htxs with h2
  rw [← h2, List.length_map]

theorem c6_reader_positional_witness :
    (∀ r ∈ rowsDemo, 5 ≤ r.length) ∧
    get_credit_transactions rowsDemo = some (rowsDemo.map (fun r =>
      { amount := r.getD 0 "", iban := r.getD 1 "", creditor_name := r.getD 2 "",
        descr := r.getD 4 "" })) :=
  ⟨by decide, (c6_reader_positional rowsDemo (by decide)).1⟩

/-- Modelled from the spec: a variant of the external template resource in
which a required node (the MsgId leaf) is absent — one instance of the
"expected template node absent" structural failure of spec section 7. -/
def sepaTemplateNoMsgId : Element :=
  .mk "Document" [("xmlns", "urn:iso:std:iso:20022:tech:xsd:pain.001.001.03")] none (elist
    [ .mk "CstmrCdtTrfInitn" [] none (elist
      [ .mk "GrpHdr" [] none (elist
        [ leaf "CreDtTm" "", leaf "NbOfTxs" "",
          .mk "InitgPty" [] none (elist [leaf "Nm" ""]) ]),
        .mk "PmtInf" [] none ((elist (hdrPmtLeaves "" "" "" "" "")).cat
          (.cons sepaTxBlock .nil)) ]) ])

/-- A template-shaped document assembled from its header-section children
and its payment-information children; used to state the variants of the
template in which one required node is absent. -/
def sepaDoc (grpHdrChildren : List Element) (pmtInfChildren : List Element) : Element :=
  .mk "Document" [("xmlns", "urn:iso:std:iso:20022:tech:xsd:pain.001.001.03")] none (elist
    [ .mk "CstmrCdtTrfInitn" [] none (elist
      [ .mk "GrpHdr" [] none (elist grpHdrChildren),
        .mk "PmtInf" [] none (elist pmtInfChildren) ]) ])

/-- The header-section children of the full template. -/
def grpHdrFull : List Element :=
  [ leaf "MsgId" "", leaf "CreDtTm" "", leaf "NbOfTxs" "",
    .mk "InitgPty" [] none (elist [leaf "Nm" ""]) ]

/-- The debtor-name node of the full template. -/
def dbtrFull : Element := .mk "Dbtr" [] none (elist [leaf "Nm" ""])

/-- The debtor-account node of the full template. -/
def dbtrAcctFull : Element :=
  .mk "DbtrAcct" [] none (elist [.mk "Id" [] none (elist [leaf "IBAN" ""])])

/-- The debtor-agent node of the full template. -/
def dbtrAgtFull : Element :=
  .mk "DbtrAgt" [] none (elist [.mk "FinInstnId" [] none (elist [leaf "BIC" ""])])

/-- The payment-information children of the full template. -/
def pmtInfFull : List Element := hdrPmtLeaves "" "" "" "" "" ++ [sepaTxBlock]

/-- Modelled from the spec: the eleven variants of the template in which
exactly one required node (the nodes `process_xml` looks up, enumerated in
spec sections 4.3 and 6) is absent: the MsgId, CreDtTm, NbOfTxs,
InitgPty/Nm, PmtInfId, ReqdExctnDt, Dbtr/Nm, DbtrAcct/Id/IBAN and
DbtrAgt/FinInstnId/BIC leaves, the sample CdtTrfTxInf block, and the whole
PmtInf section. -/
def sepaTemplateDropOne : List Element :=
  [ sepaTemplateNoMsgId,
    sepaDoc [leaf "MsgId" "", leaf "NbOfTxs" "",
      .mk "InitgPty" [] none (elist [leaf "Nm" ""])] pmtInfFull,
    sepaDoc [leaf "MsgId" "", leaf "CreDtTm" "",
      .mk "InitgPty" [] none (elist [leaf "Nm" ""])] pmtInfFull,
    sepaDoc [leaf "MsgId" "", leaf "CreDtTm" "", leaf "NbOfTxs" "",
      .mk "InitgPty" [] none .nil] pmtInfFull,
    sepaDoc grpHdrFull
      [leaf "PmtMtd" "TRF", leaf "ReqdExctnDt" "", dbtrFull, dbtrAcctFull, dbtrAgtFull,
        leaf "ChrgBr" "SLEV", sepaTxBlock],
    sepaDoc grpHdrFull
      [leaf "PmtInfId" "", leaf "PmtMtd" "TRF", dbtrFull, dbtrAcctFull, dbtrAgtFull,
        leaf "ChrgBr" "SLEV", sepaTxBlock],
    sepaDoc grpHdrFull
      [leaf "PmtInfId" "", leaf "PmtMtd" "TRF", leaf "ReqdExctnDt" "",
        .mk "Dbtr" [] none .nil, dbtrAcctFull, dbtrAgtFull,
        leaf "ChrgBr" "SLEV", sepaTxBlock],
    sepaDoc grpHdrFull
      [leaf "PmtInfId" "", leaf "PmtMtd" "TRF", leaf "ReqdExctnDt" "",
        dbtrFull, .mk "DbtrAcct" [] none (elist [.mk "Id" [] none .nil]), dbtrAgtFull,
        leaf "ChrgBr" "SLEV", sepaTxBlock],
    sepaDoc grpHdrFull
      [leaf "PmtInfId" "", leaf "PmtMtd" "TRF", leaf "ReqdExctnDt" "",
        dbtrFull, dbtrAcctFull, .mk "DbtrAgt" [] none (elist [.mk "FinInstnId" [] none .nil]),
        leaf "ChrgBr" "SLEV", sepaTxBlock],
    sepaDoc grpHdrFull (hdrPmtLeaves "" "" "" "" ""),
    .mk "Document" [("xmlns", "urn:iso:std:iso:20022:tech:xsd:pain.001.001.03")] none (elist
      [ .mk "CstmrCdtTrfInitn" [] none (elist
        [ .mk "GrpHdr" [] none (elist grpHdrFull) ]) ]) ]

/-- C7: a malformed (short) input row aborts the run for every template,
and the absence of any one of the eleven required template nodes (each
lookup `process_xml` performs) aborts it for every input: `process_xml`
yields `none`, so no output document exists to be written. -/
theorem c7_fail_aborts (args : Args) (now : DateTime) (rand : Nat → Nat) :
    (∀ template rows, (∃ r ∈ rows, r.length < 5) →
      process_xml args template rows now rand = none) ∧
    (∀ template ∈ sepaTemplateDropOne, ∀ rows,
      process_xml args template rows now rand = none) := by
  constructor
  · intro template rows hrow
    unfold process_xml
    rw [get_credit_transactions_short rows hrow]
    rfl
  · intro template hmem rows
    simp only [sepaTemplateDropOne, List.mem_cons, List.not_mem_nil, or_false] at hmem
    rcases hmem with h|h|h|h|h|h|h|h|h|h|h <;>
      subst h <;>
      cases hr : get_credit_transactions rows <;>
      (unfold process_xml; rw [hr]; rfl)

theorem c7_fail_aborts_witness :
    ((∃ r ∈ [["1", "2"]], r.length < 5) ∧
      sepaTemplateNoMsgId ∈ sepaTemplateDropOne ∧
      sepaDoc grpHdrFull (hdrPmtLeaves "" "" "" "" "") ∈ sepaTemplateDropOne) ∧
    process_xml argsDemo sepaTemplate [["1", "2"]] nowDemo randDemo = none ∧
    process_xml argsDemo sepaTemplateNoMsgId rowsDemo nowDemo randDemo = none ∧
    process_xml argsDemo (sepaDoc grpHdrFull (hdrPmtLeaves "" "" "" "" ""))
      rowsDemo nowDemo randDemo = none :=
  ⟨⟨by decide, by simp [sepaTemplateDropOne], by simp [sepaTemplateDropOne]⟩,
    (c7_fail_aborts argsDemo nowDemo randDemo).1 sepaTemplate [["1", "2"]] (by decide),
    (c7_fail_aborts argsDemo nowDemo randDemo).2 sepaTemplateNoMsgId
      (by simp [sepaTemplateDropOne]) rowsDemo,
    (c7_fail_aborts argsDemo nowDemo randDemo).2 (sepaDoc grpHdrFull (hdrPmtLeaves "" "" "" "" ""))
      (by simp [sepaTemplateDropOne]) rowsDemo⟩


/-- C1 counterexample: at the representative run time, the id generated for
the prefix `"ABCDE"` has length 28, not the 35 the claim states. -/
theorem c1_counterexample :
    (createMsgId "ABCDE" nowDemo randDemo).length = 28 ∧
      (createMsgId "ABCDE" nowDemo randDemo).length ≠ 35 := by decide


/-- C1 (amended): for every prefix and any run time with a four-digit year
the message identifier has total length 28, not the claimed 35:
5 normalized-prefix chars + 1 + 4-digit year + 10 digits + 1 + 7 random
characters. -/
theorem c1_msgid_length_28 (pfx : String) (now : DateTime) (rand : Nat → Nat)
    (hv : now.Valid) (hy : 1000 ≤ now.year) :
    (createMsgId pfx now rand).length = 28 ∧
      (createMsgId pfx now rand).length ≠ 35 := by
  obtain ⟨h1, h2, hm1, hm2, hd1, hd2, hh, hmi, hs, _⟩ := hv
  have key : (createMsgId pfx now rand).length = 28 := by
    rw [createMsgId_parts]
    simp only [String.length_append, normalizePfx_length, msgSuffix_length]
    rw [length_eq_data (natToStr now.year), natToStr_data,
      natDigits_length_four now.year hy h2]
    rw [length_eq_data (padNum 2 now.month), pad2_len now.month (by omega)]
    rw [length_eq_data (padNum 2 now.day), pad2_len now.day (by omega)]
    rw [length_eq_data (padNum 2 now.hour), pad2_len now.hour (by omega)]
    rw [length_eq_data (padNum 2 now.minute), pad2_len now.minute (by omega)]
    rw [length_eq_data (padNum 2 now.second), pad2_len now.second (by omega)]
    rfl
  exact ⟨key, by omega⟩

theorem c1_msgid_length_28_witness :
    (nowDemo.Valid ∧ 1000 ≤ nowDemo.year) ∧
    ((createMsgId "" nowDemo randDemo).length = 28 ∧
      (createMsgId "" nowDemo randDemo).length ≠ 35) :=
  ⟨⟨by decide, by decide⟩, c1_msgid_length_28 "" nowDemo randDemo (by decide) (by decide)⟩

end Xero2Rabo
